import Mathlib

/-!
Verification of the workflow orchestrator in `src/app/page.tsx`.

The development shallowly embeds the code of the page component:

* a JSON value model (`Json`) together with a printer (`emit`) and a parser
  (`parseJson`) modelling the JavaScript built-ins `JSON.stringify` and
  `JSON.parse` as used at the payload-decoding sites
  (`typeof data === 'string' ? JSON.parse(data) : data`);
* the TypeScript interfaces of the file (`NewsItem`, `NewsResponse`,
  `PersonalityProfile`, `PersonalityResponse`, `DraftMetadata`,
  `DraftResponse`, `WorkflowResult`) as Lean structures, with TypeScript
  `number` modelled as an exact decimal `JsNumber` (mantissa and
  power-of-ten exponent);
* the two orchestrator operations `handleGenerateDraft` and
  `handleRegenerateDraft` as pure state-transition functions over
  `WorkflowResult`, parameterised by an oracle giving the outcome of each
  remote agent exchange, and instrumented with the list of agent calls
  issued during the run.
-/

/-- JSON values, as produced by `JSON.parse`.  Numbers are modelled as exact
decimals `m / 10 ^ e`, which covers every numeral `JSON.stringify` prints in
plain (non-exponent) notation. -/
inductive Json where
  | null : Json
  | bool (b : Bool) : Json
  | num (m : Int) (e : Nat) : Json
  | str (s : List Char) : Json
  | arr (xs : List Json) : Json
  | obj (fs : List (List Char × Json)) : Json

/-- Rational value denoted by a JSON number with mantissa `m` and decimal
exponent `e`. -/
def decimalVal (m : Int) (e : Nat) : ℚ := (m : ℚ) / (10 : ℚ) ^ e

/-- Decimal digit to its character. -/
def digitChar (d : Nat) : Char :=
  match d with
  | 0 => '0' | 1 => '1' | 2 => '2' | 3 => '3' | 4 => '4'
  | 5 => '5' | 6 => '6' | 7 => '7' | 8 => '8' | _ => '9'

/-- Numeric value of a decimal digit character. -/
def charDigitVal (c : Char) : Nat := c.toNat - 48

/-- Little-endian decimal digits of `n`, with explicit fuel so that the
definition is structurally recursive (and hence computes by `rfl`). -/
def natDigitsAux : Nat → Nat → List Nat
  | 0, _ => []
  | _ + 1, 0 => []
  | fuel + 1, n + 1 => (n + 1) % 10 :: natDigitsAux fuel ((n + 1) / 10)

/-- Little-endian decimal digits of `n`; empty for `0`. -/
def natDigitsLSD (n : Nat) : List Nat := natDigitsAux n n

/-- Most-significant-first decimal digits of `n`, with `0` rendered as the
single digit `0`. -/
def natDigitsOf (n : Nat) : List Nat :=
  if n = 0 then [0] else (natDigitsLSD n).reverse

/-- Decimal digit characters of `n` (at least one character). -/
def natChars (n : Nat) : List Char := (natDigitsOf n).map digitChar

/-- Exactly `e` fractional digits of the fractional part `f < 10 ^ e`,
left-padded with zeros. -/
def fracDigits (e : Nat) (f : Nat) : List Nat :=
  List.replicate (e - (natDigitsLSD f).length) 0 ++ (natDigitsLSD f).reverse

/-- Characters `JSON.stringify` prints for the number `m / 10 ^ e`. -/
def numChars (m : Int) (e : Nat) : List Char :=
  (if m < 0 then ['-'] else []) ++
    (if e = 0 then natChars m.natAbs
     else natChars (m.natAbs / 10 ^ e) ++
       '.' :: (fracDigits e (m.natAbs % 10 ^ e)).map digitChar)

/-- Hexadecimal digit character (lowercase), for `\u` escapes. -/
def hexDigit (d : Nat) : Char :=
  match d with
  | 0 => '0' | 1 => '1' | 2 => '2' | 3 => '3' | 4 => '4'
  | 5 => '5' | 6 => '6' | 7 => '7' | 8 => '8' | 9 => '9'
  | 10 => 'a' | 11 => 'b' | 12 => 'c' | 13 => 'd' | 14 => 'e' | _ => 'f'

/-- Value of a hexadecimal digit character, if any. -/
def hexVal (c : Char) : Option Nat :=
  if c.isDigit then some (c.toNat - 48)
  else if 'a' ≤ c ∧ c ≤ 'f' then some (c.toNat - 87)
  else if 'A' ≤ c ∧ c ≤ 'F' then some (c.toNat - 55)
  else none

/-- Escape sequence `JSON.stringify` prints for one string character: quote
and backslash get a backslash escape, control characters a `\u00XX` escape,
every other character stands for itself. -/
def escChar (c : Char) : List Char :=
  if c = '"' ∨ c = '\\' then ['\\', c]
  else if c.toNat < 32 then
    ['\\', 'u', '0', '0', hexDigit (c.toNat / 16), hexDigit (c.toNat % 16)]
  else [c]

/-- Body of a JSON string literal (without the delimiting quotes). -/
def escAll (s : List Char) : List Char := (s.map escChar).flatten

/-- Characters of a JSON string literal including the quotes. -/
def strChars (s : List Char) : List Char := '"' :: escAll s ++ ['"']

mutual

/-- Characters `JSON.stringify` prints for a value (no whitespace, as with
the one-argument form of `JSON.stringify`). -/
def emit : Json → List Char
  | .null => "null".data
  | .bool true => "true".data
  | .bool false => "false".data
  | .num m e => numChars m e
  | .str s => strChars s
  | .arr [] => ['[', ']']
  | .arr (x :: xs) => '[' :: emitElems x xs
  | .obj [] => ['{', '}']
  | .obj (f :: fs) => '{' :: emitFields f fs
termination_by j => sizeOf j
decreasing_by all_goals simp_wf

/-- Comma-separated array elements followed by the closing bracket. -/
def emitElems : Json → List Json → List Char
  | x, [] => emit x ++ [']']
  | x, y :: ys => emit x ++ ',' :: emitElems y ys
termination_by x xs => 1 + sizeOf x + sizeOf xs
decreasing_by all_goals (simp_wf <;> omega)

/-- Comma-separated object members followed by the closing brace. -/
def emitFields : (List Char × Json) → List (List Char × Json) → List Char
  | (k, v), [] => strChars k ++ ':' :: emit v ++ ['}']
  | (k, v), g :: gs => strChars k ++ ':' :: emit v ++ ',' :: emitFields g gs
termination_by kv fs => 1 + sizeOf kv + sizeOf fs
decreasing_by all_goals (simp_wf <;> omega)

end

/-- Maximal run of decimal digit characters at the head of the input,
returned as digit values together with the remaining input. -/
def takeDigits : List Char → List Nat × List Char
  | [] => ([], [])
  | c :: cs =>
    if c.isDigit then
      let p := takeDigits cs
      (charDigitVal c :: p.1, p.2)
    else ([], c :: cs)

/-- Numeric value of most-significant-first digit values. -/
def valOfDigits (ds : List Nat) : Nat := ds.foldl (fun a d => a * 10 + d) 0

/-- Sign application for a parsed numeral. -/
def applySign (neg : Bool) (n : Nat) : Int := if neg then -(n : Int) else (n : Int)

/-- Unsigned part of a JSON numeral: integer digits and an optional
fractional part introduced by a decimal point. -/
def parseNumCore (neg : Bool) (l : List Char) : Option ((Int × Nat) × List Char) :=
  let p := takeDigits l
  if p.1.isEmpty then none
  else
    match p.2 with
    | [] => some ((applySign neg (valOfDigits p.1), 0), [])
    | c :: r2 =>
      if c = '.' then
        let q := takeDigits r2
        if q.1.isEmpty then none
        else
          some ((applySign neg (valOfDigits p.1 * 10 ^ q.1.length + valOfDigits q.1),
                 q.1.length), q.2)
      else some ((applySign neg (valOfDigits p.1), 0), c :: r2)

/-- JSON numeral with an optional leading minus sign. -/
def parseNum (l : List Char) : Option ((Int × Nat) × List Char) :=
  match l with
  | [] => none
  | c :: t => if c = '-' then parseNumCore true t else parseNumCore false (c :: t)

/-- Body of a JSON string literal after the opening quote, up to and
including the closing quote; handles the escapes produced by `escChar`. -/
def parseStrBody : List Char → Option (List Char × List Char)
  | [] => none
  | c :: cs =>
    if c = '"' then some ([], cs)
    else if c = '\\' then
      match cs with
      | [] => none
      | d :: ds =>
        if d = '"' ∨ d = '\\' then (parseStrBody ds).map (fun p => (d :: p.1, p.2))
        else if d = 'u' then
          match ds with
          | h1 :: h2 :: h3 :: h4 :: es =>
            match hexVal h1, hexVal h2, hexVal h3, hexVal h4 with
            | some a, some b, some x, some y =>
              (parseStrBody es).map
                (fun p => (Char.ofNat (((a * 16 + b) * 16 + x) * 16 + y) :: p.1, p.2))
            | _, _, _, _ => none
          | _ => none
        else none
    else (parseStrBody cs).map (fun p => (c :: p.1, p.2))

/-- Fixed literal characters expected at the head of the input (used for the
keywords `null`, `true`, `false`). -/
def expectChars : List Char → List Char → Option (List Char)
  | [], l => some l
  | _ :: _, [] => none
  | c :: cs, d :: l => if d = c then expectChars cs l else none

mutual

/-- Recursive-descent JSON value, with fuel bounding the recursion depth.
Models `JSON.parse` on the whitespace-free documents `JSON.stringify`
produces. -/
def parseVal : Nat → List Char → Option (Json × List Char)
  | 0, _ => none
  | _ + 1, [] => none
  | f + 1, c :: cs =>
    if c = 'n' then (expectChars ['u', 'l', 'l'] cs).map (fun r => (Json.null, r))
    else if c = 't' then (expectChars ['r', 'u', 'e'] cs).map (fun r => (Json.bool true, r))
    else if c = 'f' then (expectChars ['a', 'l', 's', 'e'] cs).map (fun r => (Json.bool false, r))
    else if c = '"' then (parseStrBody cs).map (fun p => (Json.str p.1, p.2))
    else if c = '[' then parseArrBody f cs
    else if c = '{' then parseObjBody f cs
    else (parseNum (c :: cs)).map (fun p => (Json.num p.1.1 p.1.2, p.2))
termination_by fuel _ => (fuel, 0)

/-- Array body after the opening bracket: empty array or element list. -/
def parseArrBody : Nat → List Char → Option (Json × List Char)
  | _, [] => none
  | f, d :: ds =>
    if d = ']' then some (Json.arr [], ds)
    else (parseElems f (d :: ds)).map (fun p => (Json.arr p.1, p.2))
termination_by f _ => (f, 4)

/-- Object body after the opening brace: empty object or member list. -/
def parseObjBody : Nat → List Char → Option (Json × List Char)
  | _, [] => none
  | f, d :: ds =>
    if d = '}' then some (Json.obj [], ds)
    else (parseFields f (d :: ds)).map (fun p => (Json.obj p.1, p.2))
termination_by f _ => (f, 4)

/-- Nonempty comma-separated list of array elements up to and including the
closing bracket. -/
def parseElems : Nat → List Char → Option (List Json × List Char)
  | 0, _ => none
  | f + 1, l => parseElemsVal f (parseVal f l)
termination_by fuel _ => (fuel, 1)

/-- Continuation after one array element has been parsed. -/
def parseElemsVal : Nat → Option (Json × List Char) → Option (List Json × List Char)
  | _, none => none
  | f, some (v, r) => parseElemsSep f v r
termination_by f _ => (f, 3)

/-- Separator or closing bracket after an array element. -/
def parseElemsSep : Nat → Json → List Char → Option (List Json × List Char)
  | _, _, [] => none
  | f, v, c :: r2 =>
    if c = ',' then (parseElems f r2).map (fun p => (v :: p.1, p.2))
    else if c = ']' then some ([v], r2)
    else none
termination_by f _ _ => (f, 2)

/-- Nonempty comma-separated list of object members up to and including the
closing brace. -/
def parseFields : Nat → List Char → Option (List (List Char × Json) × List Char)
  | 0, _ => none
  | _ + 1, [] => none
  | f + 1, c :: r0 =>
    if c = '"' then parseFieldsAfterKey f (parseStrBody r0)
    else none
termination_by fuel _ => (fuel, 1)

/-- Continuation after an object key has been parsed. -/
def parseFieldsAfterKey : Nat → Option (List Char × List Char) →
    Option (List (List Char × Json) × List Char)
  | _, none => none
  | f, some (k, r1) => parseFieldsColon f k r1
termination_by f _ => (f, 5)

/-- Colon between an object key and its value. -/
def parseFieldsColon : Nat → List Char → List Char →
    Option (List (List Char × Json) × List Char)
  | _, _, [] => none
  | f, k, c :: r2 =>
    if c = ':' then parseFieldsVal f k (parseVal f r2)
    else none
termination_by f _ _ => (f, 4)

/-- Continuation after an object value has been parsed. -/
def parseFieldsVal : Nat → List Char → Option (Json × List Char) →
    Option (List (List Char × Json) × List Char)
  | _, _, none => none
  | f, k, some (v, r3) => parseFieldsSep f k v r3
termination_by f _ _ => (f, 3)

/-- Separator or closing brace after an object member. -/
def parseFieldsSep : Nat → List Char → Json → List Char →
    Option (List (List Char × Json) × List Char)
  | _, _, _, [] => none
  | f, k, v, c :: r4 =>
    if c = ',' then (parseFields f r4).map (fun p => ((k, v) :: p.1, p.2))
    else if c = '}' then some ([(k, v)], r4)
    else none
termination_by f _ _ _ => (f, 2)

end

/-- Model of `JSON.parse`: the whole input must be consumed; `none` models a
thrown `SyntaxError`. -/
def parseJson (s : List Char) : Option Json :=
  match parseVal (s.length + 1) s with
  | some (j, []) => some j
  | _ => none

/-- Payload of a successful agent reply: either an already-structured value
or a serialized-string encoding of one. -/
inductive Payload where
  | structured (j : Json) : Payload
  | serialized (s : List Char) : Payload

/-- Payload normalization performed at each stage, as in
`typeof data === 'string' ? JSON.parse(data) : data` (lines 119-120,
128-131, 144-145 and 179-180 of `src/app/page.tsx`); `none` models a
`JSON.parse` exception reaching the surrounding catch block. -/
def decodePayload : Payload → Option Json
  | .structured j => some j
  | .serialized s => parseJson s

theorem digitChar_isDigit : ∀ d : Nat, d < 10 → (digitChar d).isDigit = true := by decide

theorem charDigitVal_digitChar : ∀ d : Nat, d < 10 → charDigitVal (digitChar d) = d := by decide

theorem ne_of_isDigit {c x : Char} (h : c.isDigit = true) (hx : x.isDigit = false) :
    c ≠ x := by
  rintro rfl
  rw [h] at hx
  cases hx

theorem natDigitsAux_eq : ∀ fuel n, n ≤ fuel → natDigitsAux fuel n = Nat.digits 10 n := by
  intro fuel
  induction fuel with
  | zero =>
    intro n h
    interval_cases n
    simp [natDigitsAux]
  | succ f ih =>
    intro n h
    match n with
    | 0 => simp [natDigitsAux]
    | m + 1 =>
      rw [natDigitsAux, ih ((m + 1) / 10) (by
        have hd : (m + 1) / 10 < m + 1 := Nat.div_lt_self (Nat.succ_pos m) (by omega)
        omega)]
      rw [Nat.digits_def' (b := 10) (by norm_num) (Nat.succ_pos m)]

theorem natDigitsLSD_eq (n : Nat) : natDigitsLSD n = Nat.digits 10 n :=
  natDigitsAux_eq n n le_rfl

theorem foldr_eq_ofDigits (l : List Nat) :
    l.foldr (fun d a => a * 10 + d) 0 = Nat.ofDigits 10 l := by
  induction l with
  | nil => rfl
  | cons d t ih =>
    rw [List.foldr_cons, ih, Nat.ofDigits_cons]
    ring

theorem valOfDigits_reverse (l : List Nat) :
    valOfDigits l.reverse = l.foldr (fun d a => a * 10 + d) 0 := by
  rw [valOfDigits, List.foldl_reverse]

theorem valOfDigits_digitsRev (n : Nat) :
    valOfDigits ((Nat.digits 10 n).reverse) = n := by
  rw [valOfDigits_reverse, foldr_eq_ofDigits, Nat.ofDigits_digits]

theorem valOfDigits_natDigitsOf (n : Nat) : valOfDigits (natDigitsOf n) = n := by
  rw [natDigitsOf]
  split
  · simp [valOfDigits, *]
  · rw [natDigitsLSD_eq, valOfDigits_digitsRev]

theorem natDigitsOf_lt (n : Nat) : ∀ d ∈ natDigitsOf n, d < 10 := by
  intro d hd
  rw [natDigitsOf] at hd
  split at hd
  · simp at hd
    omega
  · rw [natDigitsLSD_eq] at hd
    exact Nat.digits_lt_base (by norm_num) (List.mem_reverse.mp hd)

theorem natDigitsOf_ne_nil (n : Nat) : natDigitsOf n ≠ [] := by
  rw [natDigitsOf]
  split
  · simp
  · simp only [ne_eq, List.reverse_eq_nil_iff, natDigitsLSD_eq]
    exact Nat.digits_ne_nil_iff_ne_zero.mpr (by assumption)

theorem valOfDigits_replicate_zero (k : Nat) (ds : List Nat) :
    valOfDigits (List.replicate k 0 ++ ds) = valOfDigits ds := by
  induction k with
  | zero => rfl
  | succ m ih =>
    rw [List.replicate_succ, List.cons_append, valOfDigits, List.foldl_cons]
    simpa [valOfDigits] using ih

theorem digitsLen_le : ∀ e f : Nat, f < 10 ^ e → (Nat.digits 10 f).length ≤ e := by
  intro e
  induction e with
  | zero =>
    intro f h
    interval_cases f
    simp
  | succ e ih =>
    intro f h
    rcases Nat.eq_zero_or_pos f with rfl | hf
    · simp
    · rw [Nat.digits_def' (b := 10) (by norm_num) hf]
      simp only [List.length_cons]
      have h2 : f / 10 < 10 ^ e := by
        rw [Nat.div_lt_iff_lt_mul (by norm_num)]
        calc f < 10 ^ (e + 1) := h
        _ = 10 ^ e * 10 := by ring
      have := ih _ h2
      omega

theorem fracDigits_length (e f : Nat) (h : f < 10 ^ e) :
    (fracDigits e f).length = e := by
  have hlen : (natDigitsLSD f).length ≤ e := by
    rw [natDigitsLSD_eq]
    exact digitsLen_le e f h
  simp [fracDigits]
  omega

theorem fracDigits_val (e f : Nat) : valOfDigits (fracDigits e f) = f := by
  rw [fracDigits, valOfDigits_replicate_zero, natDigitsLSD_eq, valOfDigits_digitsRev]

theorem fracDigits_lt (e f : Nat) : ∀ d ∈ fracDigits e f, d < 10 := by
  intro d hd
  rw [fracDigits, List.mem_append] at hd
  rcases hd with hd | hd
  · rw [List.eq_of_mem_replicate hd]
    omega
  · rw [natDigitsLSD_eq] at hd
    exact Nat.digits_lt_base (by norm_num) (List.mem_reverse.mp hd)

/-- Input whose head is not a decimal digit (so a maximal digit run has
ended). -/
def noDigitHead : List Char → Prop
  | [] => True
  | c :: _ => c.isDigit = false

/-- Input that may legally follow a JSON numeral: in the documents `emit`
produces a numeral is followed by nothing or by a separator or closing
bracket, never by another digit or a decimal point. -/
def goodFollow : List Char → Prop
  | [] => True
  | c :: _ => c.isDigit = false ∧ c ≠ '.'

theorem goodFollow_noDigitHead {rest : List Char} (h : goodFollow rest) :
    noDigitHead rest := by
  cases rest with
  | nil => trivial
  | cons c t => exact h.1

theorem takeDigits_cons_digit (c : Char) (cs : List Char) (h : c.isDigit = true) :
    takeDigits (c :: cs) = (charDigitVal c :: (takeDigits cs).1, (takeDigits cs).2) := by
  rw [takeDigits, if_pos h]

theorem takeDigits_cons_not (c : Char) (cs : List Char) (h : c.isDigit = false) :
    takeDigits (c :: cs) = ([], c :: cs) := by
  rw [takeDigits, if_neg (by simp [h])]

theorem takeDigits_append :
    ∀ ds : List Nat, (∀ d ∈ ds, d < 10) → ∀ rest, noDigitHead rest →
      takeDigits (ds.map digitChar ++ rest) = (ds, rest) := by
  intro ds
  induction ds with
  | nil =>
    intro _ rest hr
    cases rest with
    | nil => rfl
    | cons c t =>
      simp only [List.map_nil, List.nil_append]
      exact takeDigits_cons_not c t hr
  | cons d ds ih =>
    intro hlt rest hr
    have hd : d < 10 := hlt d (List.mem_cons_self d ds)
    rw [List.map_cons, List.cons_append,
      takeDigits_cons_digit _ _ (digitChar_isDigit d hd),
      ih (fun x hx => hlt x (List.mem_cons_of_mem d hx)) rest hr,
      charDigitVal_digitChar d hd]

theorem parseNumCore_int (neg : Bool) (n : Nat) (rest : List Char)
    (hr : goodFollow rest) :
    parseNumCore neg (natChars n ++ rest) =
    some ((applySign neg (valOfDigits (natDigitsOf n)), 0), rest) := by
  rw [natChars, parseNumCore]
  rw [takeDigits_append _ (natDigitsOf_lt n) rest (goodFollow_noDigitHead hr)]
  cases rest with
  | nil => simp [List.isEmpty_iff, natDigitsOf_ne_nil n]
  | cons c t => simp [List.isEmpty_iff, natDigitsOf_ne_nil n, hr.2]

theorem parseNumCore_frac (neg : Bool) (n e : Nat) (rest : List Char)
    (he : e ≠ 0) (hr : goodFollow rest) :
    parseNumCore neg
      (natChars (n / 10 ^ e) ++
        '.' :: ((fracDigits e (n % 10 ^ e)).map digitChar ++ rest)) =
    some ((applySign neg n, e), rest) := by
  have hfrac : n % 10 ^ e < 10 ^ e := Nat.mod_lt n (Nat.pos_pow_of_pos e (by norm_num))
  have hfne : fracDigits e (n % 10 ^ e) ≠ [] := by
    intro hnil
    have hl := fracDigits_length e (n % 10 ^ e) hfrac
    rw [hnil] at hl
    simp at hl
    omega
  rw [natChars, parseNumCore]
  rw [takeDigits_append _ (natDigitsOf_lt (n / 10 ^ e)) _ (by simp [noDigitHead])]
  simp [List.isEmpty_iff, natDigitsOf_ne_nil (n / 10 ^ e), hfne,
    takeDigits_append _ (fracDigits_lt e (n % 10 ^ e)) rest (goodFollow_noDigitHead hr),
    valOfDigits_natDigitsOf, fracDigits_val, fracDigits_length e _ hfrac]
  rw [Nat.div_add_mod']

theorem natChars_head (n : Nat) :
    ∃ c t, natChars n = c :: t ∧ c.isDigit = true := by
  cases hl : natDigitsOf n with
  | nil => exact absurd hl (natDigitsOf_ne_nil n)
  | cons d t =>
    refine ⟨digitChar d, t.map digitChar, ?_, ?_⟩
    · rw [natChars, hl, List.map_cons]
    · exact digitChar_isDigit d (natDigitsOf_lt n d (hl ▸ List.mem_cons_self d t))

theorem parseNum_digit_head (c : Char) (t : List Char) (hc : c.isDigit = true) :
    parseNum (c :: t) = parseNumCore false (c :: t) := by
  rw [parseNum, if_neg (ne_of_isDigit hc (by decide))]

theorem parseNum_emit (m : Int) (e : Nat) (rest : List Char) (hr : goodFollow rest) :
    parseNum (numChars m e ++ rest) = some ((m, e), rest) := by
  by_cases hm : m < 0
  · have hsign : applySign true m.natAbs = m := by
      rw [applySign, if_pos rfl]
      omega
    rw [numChars, if_pos hm]
    by_cases he : e = 0
    · subst he
      rw [if_pos rfl]
      simp only [List.append_assoc, List.cons_append, List.nil_append]
      rw [parseNum, if_pos rfl, parseNumCore_int true _ rest hr,
        valOfDigits_natDigitsOf, hsign]
    · rw [if_neg he]
      simp only [List.append_assoc, List.cons_append, List.nil_append]
      rw [parseNum, if_pos rfl, parseNumCore_frac true _ e rest he hr, hsign]
  · have hsign : applySign false m.natAbs = m := by
      rw [applySign, if_neg (by decide)]
      omega
    rw [numChars, if_neg hm, List.nil_append]
    by_cases he : e = 0
    · subst he
      rw [if_pos rfl]
      obtain ⟨c, t, hct, hcd⟩ := natChars_head m.natAbs
      rw [hct, List.cons_append, parseNum_digit_head c _ hcd, ← List.cons_append,
        ← hct, parseNumCore_int false _ rest hr, valOfDigits_natDigitsOf, hsign]
    · rw [if_neg he]
      simp only [List.append_assoc, List.cons_append]
      obtain ⟨c, t, hct, hcd⟩ := natChars_head (m.natAbs / 10 ^ e)
      rw [hct, List.cons_append, parseNum_digit_head c _ hcd, ← List.cons_append,
        ← hct, parseNumCore_frac false _ e rest he hr, hsign]

theorem escAll_cons (c : Char) (s : List Char) :
    escAll (c :: s) = escChar c ++ escAll s := by
  simp [escAll]

theorem hexVal_hexDigit : ∀ d : Nat, d < 16 → hexVal (hexDigit d) = some d := by decide

theorem parseStrBody_emit :
    ∀ s rest : List Char, parseStrBody (escAll s ++ '"' :: rest) = some (s, rest) := by
  intro s
  induction s with
  | nil =>
    intro rest
    show parseStrBody (escAll [] ++ '"' :: rest) = some ([], rest)
    rw [escAll, List.map_nil, List.flatten_nil, List.nil_append, parseStrBody.eq_def]
    simp
  | cons c s ih =>
    intro rest
    rw [escAll_cons, List.append_assoc]
    by_cases h1 : c = '"' ∨ c = '\\'
    · rw [escChar, if_pos h1]
      rcases h1 with rfl | rfl <;>
      · simp only [List.cons_append, List.nil_append]
        rw [parseStrBody.eq_def]
        simp [ih rest]
    · have hq : c ≠ '"' := fun h => h1 (Or.inl h)
      have hb : c ≠ '\\' := fun h => h1 (Or.inr h)
      rw [escChar, if_neg h1]
      by_cases h2 : c.toNat < 32
      · rw [if_pos h2]
        simp only [List.cons_append, List.nil_append]
        rw [parseStrBody.eq_def]
        have hx1 : hexVal (hexDigit (c.toNat / 16)) = some (c.toNat / 16) :=
          hexVal_hexDigit _ (by omega)
        have hx2 : hexVal (hexDigit (c.toNat % 16)) = some (c.toNat % 16) :=
          hexVal_hexDigit _ (by omega)
        have hx0 : hexVal '0' = some 0 := by decide
        simp [hx0, hx1, hx2, ih rest]
        rw [Nat.div_add_mod', Char.ofNat_toNat]
      · rw [if_neg h2]
        simp only [List.cons_append, List.nil_append]
        rw [parseStrBody.eq_def]
        simp [hq, hb, ih rest]

theorem goodFollow_cons {c : Char} (l : List Char) (h1 : c.isDigit = false)
    (h2 : c ≠ '.') : goodFollow (c :: l) :=
  ⟨h1, h2⟩

theorem numChars_head (m : Int) (e : Nat) :
    ∃ c t, numChars m e = c :: t ∧ (c = '-' ∨ c.isDigit = true) := by
  rw [numChars]
  by_cases hm : m < 0
  · rw [if_pos hm]
    exact ⟨'-', _, rfl, Or.inl rfl⟩
  · rw [if_neg hm, List.nil_append]
    by_cases he : e = 0
    · subst he
      rw [if_pos rfl]
      obtain ⟨c, t, hct, hcd⟩ := natChars_head m.natAbs
      exact ⟨c, t, hct, Or.inr hcd⟩
    · rw [if_neg he]
      obtain ⟨c, t, hct, hcd⟩ := natChars_head (m.natAbs / 10 ^ e)
      exact ⟨c, t ++ '.' :: (fracDigits e (m.natAbs % 10 ^ e)).map digitChar,
        by rw [hct, List.cons_append], Or.inr hcd⟩

theorem numHead_ne {c : Char} (h : c = '-' ∨ c.isDigit = true) :
    ∀ x : Char, x.isDigit = false → x ≠ '-' → c ≠ x := by
  intro x hx hxm
  rcases h with rfl | h
  · exact fun hc => hxm hc.symm
  · exact ne_of_isDigit h hx

theorem emit_head (j : Json) :
    ∃ c t, emit j = c :: t ∧ ∀ x ∈ [']', '}'], c ≠ x := by
  cases j with
  | null => exact ⟨'n', ['u', 'l', 'l'], by rw [emit], by decide⟩
  | bool b =>
    cases b with
    | true => exact ⟨'t', ['r', 'u', 'e'], by rw [emit], by decide⟩
    | false => exact ⟨'f', ['a', 'l', 's', 'e'], by rw [emit], by decide⟩
  | num m e =>
    obtain ⟨c, t, hct, hcd⟩ := numChars_head m e
    refine ⟨c, t, by rw [emit, hct], ?_⟩
    intro x hx
    fin_cases hx
    · exact numHead_ne hcd ']' (by decide) (by decide)
    · exact numHead_ne hcd '}' (by decide) (by decide)
  | str s =>
    exact ⟨'"', escAll s ++ ['"'], by simp [emit, strChars], by decide⟩
  | arr xs =>
    cases xs with
    | nil => exact ⟨'[', [']'], by rw [emit], by decide⟩
    | cons x xs => exact ⟨'[', emitElems x xs, by rw [emit], by decide⟩
  | obj fs =>
    cases fs with
    | nil => exact ⟨'{', ['}'], by rw [emit], by decide⟩
    | cons g gs => exact ⟨'{', emitFields g gs, by rw [emit], by decide⟩

theorem emitElems_head (x : Json) (xs : List Json) :
    ∃ c t, emitElems x xs = c :: t ∧ c ≠ ']' := by
  obtain ⟨c, t, hct, hall⟩ := emit_head x
  have h1 : c ≠ ']' := hall ']' (by decide)
  cases xs with
  | nil => exact ⟨c, t ++ [']'], by rw [emitElems, hct, List.cons_append], h1⟩
  | cons y ys =>
    exact ⟨c, t ++ ',' :: emitElems y ys, by rw [emitElems, hct, List.cons_append], h1⟩

theorem emitFields_head (kv : List Char × Json) (fs : List (List Char × Json)) :
    ∃ t, emitFields kv fs = '"' :: t := by
  obtain ⟨k, v⟩ := kv
  cases fs with
  | nil =>
    exact ⟨escAll k ++ ['"'] ++ ':' :: emit v ++ ['}'],
      by simp [emitFields, strChars]⟩
  | cons g gs =>
    exact ⟨escAll k ++ ['"'] ++ ':' :: emit v ++ ',' :: emitFields g gs,
      by simp [emitFields, strChars]⟩

theorem parse_emit_main : ∀ fuel : Nat,
    (∀ j rest, (emit j).length < fuel → goodFollow rest →
      parseVal fuel (emit j ++ rest) = some (j, rest)) ∧
    (∀ x xs rest, (emitElems x xs).length < fuel → goodFollow rest →
      parseElems fuel (emitElems x xs ++ rest) = some (x :: xs, rest)) ∧
    (∀ kv fs rest, (emitFields kv fs).length < fuel → goodFollow rest →
      parseFields fuel (emitFields kv fs ++ rest) = some (kv :: fs, rest)) := by
  intro fuel
  induction fuel with
  | zero =>
    exact ⟨fun j rest h _ => absurd h (by omega), fun x xs rest h _ => absurd h (by omega),
      fun kv fs rest h _ => absurd h (by omega)⟩
  | succ f ih =>
    obtain ⟨ihv, ihe, ihf⟩ := ih
    refine ⟨?_, ?_, ?_⟩
    · intro j rest hlen hr
      cases j with
      | null =>
        rw [show emit Json.null = ['n', 'u', 'l', 'l'] from by rw [emit]]
        simp only [List.cons_append, List.nil_append]
        rw [parseVal, if_pos rfl]
        rfl
      | bool b =>
        cases b with
        | true =>
          rw [show emit (Json.bool true) = ['t', 'r', 'u', 'e'] from by rw [emit]]
          simp only [List.cons_append, List.nil_append]
          rw [parseVal, if_neg (by decide), if_pos rfl]
          rfl
        | false =>
          rw [show emit (Json.bool false) = ['f', 'a', 'l', 's', 'e'] from by rw [emit]]
          simp only [List.cons_append, List.nil_append]
          rw [parseVal, if_neg (by decide), if_neg (by decide), if_pos rfl]
          rfl
      | num m e =>
        rw [show emit (Json.num m e) = numChars m e from by rw [emit]]
        obtain ⟨c, t, hct, hcd⟩ := numChars_head m e
        have hne := numHead_ne hcd
        rw [hct, List.cons_append, parseVal,
          if_neg (hne 'n' (by decide) (by decide)),
          if_neg (hne 't' (by decide) (by decide)),
          if_neg (hne 'f' (by decide) (by decide)),
          if_neg (hne '"' (by decide) (by decide)),
          if_neg (hne '[' (by decide) (by decide)),
          if_neg (hne '{' (by decide) (by decide)),
          ← List.cons_append, ← hct, parseNum_emit m e rest hr]
        rfl
      | str s =>
        rw [show emit (Json.str s) = ('"' :: escAll s) ++ ['"'] from by rw [emit, strChars]]
        rw [List.append_assoc, List.singleton_append, List.cons_append, parseVal,
          if_neg (by decide), if_neg (by decide), if_neg (by decide), if_pos rfl,
          parseStrBody_emit s rest]
        rfl
      | arr xs =>
        cases xs with
        | nil =>
          rw [show emit (Json.arr []) = ['[', ']'] from by rw [emit]]
          simp only [List.cons_append, List.nil_append]
          rw [parseVal, if_neg (by decide), if_neg (by decide), if_neg (by decide),
            if_neg (by decide), if_pos rfl, parseArrBody, if_pos rfl]
        | cons x xs =>
          rw [show emit (Json.arr (x :: xs)) = '[' :: emitElems x xs from by rw [emit]] at hlen ⊢
          simp only [List.length_cons] at hlen
          rw [List.cons_append, parseVal, if_neg (by decide), if_neg (by decide),
            if_neg (by decide), if_neg (by decide), if_pos rfl]
          obtain ⟨d, ds, hds, hdne⟩ := emitElems_head x xs
          rw [hds, List.cons_append, parseArrBody, if_neg hdne, ← List.cons_append, ← hds,
            ihe x xs rest (by omega) hr]
          rfl
      | obj fs =>
        cases fs with
        | nil =>
          rw [show emit (Json.obj []) = ['{', '}'] from by rw [emit]]
          simp only [List.cons_append, List.nil_append]
          rw [parseVal, if_neg (by decide), if_neg (by decide), if_neg (by decide),
            if_neg (by decide), if_neg (by decide), if_pos rfl, parseObjBody, if_pos rfl]
        | cons g gs =>
          rw [show emit (Json.obj (g :: gs)) = '{' :: emitFields g gs from by rw [emit]] at hlen ⊢
          simp only [List.length_cons] at hlen
          rw [List.cons_append, parseVal, if_neg (by decide), if_neg (by decide),
            if_neg (by decide), if_neg (by decide), if_neg (by decide), if_pos rfl]
          obtain ⟨t, hts⟩ := emitFields_head g gs
          rw [hts, List.cons_append, parseObjBody, if_neg (by decide), ← List.cons_append,
            ← hts, ihf g gs rest (by omega) hr]
          rfl
    · intro x xs rest hlen hr
      cases xs with
      | nil =>
        rw [show emitElems x [] = emit x ++ [']'] from by rw [emitElems]] at hlen ⊢
        simp only [List.length_append, List.length_cons, List.length_nil] at hlen
        rw [List.append_assoc, List.singleton_append, parseElems,
          ihv x (']' :: rest) (by omega) ⟨by decide, by decide⟩,
          parseElemsVal, parseElemsSep, if_neg (by decide), if_pos rfl]
      | cons y ys =>
        rw [show emitElems x (y :: ys) = emit x ++ ',' :: emitElems y ys from by
          rw [emitElems]] at hlen ⊢
        simp only [List.length_append, List.length_cons] at hlen
        rw [List.append_assoc, List.cons_append, parseElems,
          ihv x (',' :: (emitElems y ys ++ rest)) (by omega) ⟨by decide, by decide⟩,
          parseElemsVal, parseElemsSep, if_pos rfl, ihe y ys rest (by omega) hr]
        rfl
    · intro kv fs rest hlen hr
      obtain ⟨k, v⟩ := kv
      cases fs with
      | nil =>
        rw [show emitFields (k, v) [] = ('"' :: escAll k) ++ ['"'] ++ ':' :: emit v ++ ['}']
          from by rw [emitFields, strChars]] at hlen ⊢
        simp only [List.length_append, List.length_cons, List.length_nil] at hlen
        simp only [List.append_assoc, List.cons_append, List.singleton_append,
          List.nil_append]
        rw [parseFields, if_pos rfl, parseStrBody_emit k, parseFieldsAfterKey,
          parseFieldsColon, if_pos rfl, ihv v ('}' :: rest) (by omega) ⟨by decide, by decide⟩,
          parseFieldsVal, parseFieldsSep, if_neg (by decide), if_pos rfl]
      | cons g gs =>
        rw [show emitFields (k, v) (g :: gs) =
            ('"' :: escAll k) ++ ['"'] ++ ':' :: emit v ++ ',' :: emitFields g gs
          from by rw [emitFields, strChars]] at hlen ⊢
        simp only [List.length_append, List.length_cons] at hlen
        simp only [List.append_assoc, List.cons_append, List.singleton_append,
          List.nil_append]
        rw [parseFields, if_pos rfl, parseStrBody_emit k, parseFieldsAfterKey,
          parseFieldsColon, if_pos rfl,
          ihv v (',' :: (emitFields g gs ++ rest)) (by omega) ⟨by decide, by decide⟩,
          parseFieldsVal, parseFieldsSep, if_pos rfl, ihf g gs rest (by omega) hr]
        rfl

theorem parseJson_emit (j : Json) : parseJson (emit j) = some j := by
  have h := (parse_emit_main ((emit j).length + 1)).1 j [] (by omega) trivial
  rw [List.append_nil] at h
  rw [parseJson, h]

/-- Model of a TypeScript `number` as the exact decimal the JSON wire format
carries: the value `m / 10 ^ e`. -/
structure JsNumber where
  m : Int
  e : Nat

/-- Interface `NewsItem` of `src/app/page.tsx` (lines 12-20). -/
structure NewsItem where
  headline : String
  source : String
  date : String
  summary : String
  key_takeaway : String
  url : String
  relevance_score : JsNumber

/-- Interface `SearchMetadata` (lines 22-27). -/
structure SearchMetadata where
  queries_executed : List String
  total_results_found : Int
  results_selected : Int
  search_timestamp : String

/-- Interface `NewsResponse` (lines 29-33). -/
structure NewsResponse where
  news_summary : List NewsItem
  search_metadata : SearchMetadata
  confidence : JsNumber

/-- Union type of `formality_level` (line 37). -/
inductive FormalityLevel where
  | formal : FormalityLevel
  | semiFormal : FormalityLevel
  | informal : FormalityLevel
  | veryCasual : FormalityLevel

/-- String carried by each `formality_level` alternative. -/
def FormalityLevel.text : FormalityLevel → String
  | .formal => "formal"
  | .semiFormal => "semi-formal"
  | .informal => "informal"
  | .veryCasual => "very casual"

/-- Interface `PersonalityProfile` (lines 35-45); `topic_angles` is a
`Record<string, string>`, modelled as an association list. -/
structure PersonalityProfile where
  tone : String
  formality_level : FormalityLevel
  vocabulary_style : String
  emoji_usage : String
  sentence_structure : String
  humor_style : String
  engagement_style : String
  key_phrases : List String
  topic_angles : List (String × String)

/-- Interface `PersonalityResponse` (lines 47-51). -/
structure PersonalityResponse where
  personality_profile : PersonalityProfile
  confidence : JsNumber
  analysis_summary : String

/-- Interface `DraftMetadata` (lines 53-60). -/
structure DraftMetadata where
  character_count : Int
  emoji_count : Int
  tone_match : JsNumber
  personality_alignment : JsNumber
  engagement_potential : JsNumber
  news_sources_used : List String

/-- Interface `DraftResponse` (lines 62-67). -/
structure DraftResponse where
  draft_message : String
  metadata : DraftMetadata
  confidence : JsNumber
  generation_notes : String

/-- Interface `WorkflowResult` (lines 69-75): the workflow state held in the
`result` React state variable. -/
structure WorkflowResult where
  news : Option NewsResponse
  personality : Option PersonalityResponse
  draft : Option DraftResponse
  loading : Bool
  error : Option String

/-- Initial state passed to `useState` (lines 79-85). -/
def initialResult : WorkflowResult :=
  { news := none, personality := none, draft := none, loading := false, error := none }

/-- Agent identifiers (lines 88-92). -/
structure AgentIds where
  news : String
  personality : String
  draft : String

def AGENT_IDS : AgentIds :=
  { news := "690443fbe26dd0e0368525c4"
    personality := "6904440fe26dd0e0368525c5"
    draft := "6904441bcb70cd01d307c50e" }

/-- One request issued through `callAgent` (lines 94-107): the body fields
`agent_id` and `message` of the POST to `/api/agent`. -/
structure AgentCall where
  agent_id : String
  message : String

/-- JSON encoding of a `JsNumber`. -/
def JsNumber.toJson (x : JsNumber) : Json := Json.num x.m x.e

/-- JSON encoding of a `NewsItem`, with keys in interface order. -/
def NewsItem.toJson (it : NewsItem) : Json :=
  Json.obj
    [("headline".data, Json.str it.headline.data),
     ("source".data, Json.str it.source.data),
     ("date".data, Json.str it.date.data),
     ("summary".data, Json.str it.summary.data),
     ("key_takeaway".data, Json.str it.key_takeaway.data),
     ("url".data, Json.str it.url.data),
     ("relevance_score".data, it.relevance_score.toJson)]

/-- JSON encoding of a `PersonalityProfile`, with keys in interface order. -/
def PersonalityProfile.toJson (p : PersonalityProfile) : Json :=
  Json.obj
    [("tone".data, Json.str p.tone.data),
     ("formality_level".data, Json.str p.formality_level.text.data),
     ("vocabulary_style".data, Json.str p.vocabulary_style.data),
     ("emoji_usage".data, Json.str p.emoji_usage.data),
     ("sentence_structure".data, Json.str p.sentence_structure.data),
     ("humor_style".data, Json.str p.humor_style.data),
     ("engagement_style".data, Json.str p.engagement_style.data),
     ("key_phrases".data, Json.arr (p.key_phrases.map (fun s => Json.str s.data))),
     ("topic_angles".data, Json.obj (p.topic_angles.map
        (fun kv => (kv.1.data, Json.str kv.2.data))))]

/-- String produced by `JSON.stringify` in this model. -/
def stringifyJson (j : Json) : String := String.mk (emit j)

/-- News context of the full pipeline (line 134):
`JSON.stringify(newsResult.news_summary.slice(0, 3))`.  The item list used
is the `slice(0, 3)` prefix. -/
def newsContextGenItems (n : NewsResponse) : List NewsItem := n.news_summary.take 3

/-- News context of the regenerate path (line 169):
`JSON.stringify(result.news.news_summary.slice(0, 3))`. -/
def newsContextRegenItems (n : NewsResponse) : List NewsItem := n.news_summary.take 3

/-- Serialized news context string. -/
def itemsContext (items : List NewsItem) : String :=
  stringifyJson (Json.arr (items.map NewsItem.toJson))

/-- Instruction of stage 1 (lines 114-117). -/
def newsInstruction : String :=
  "Search for the latest AI and Lyzr news articles. Focus on recent developments, breakthroughs, and industry updates. Return structured JSON with headlines, sources, dates, summaries, key takeaways, URLs, and relevance scores."

/-- Instruction of stage 2 (lines 123-126). -/
def personalityInstruction : String :=
  "Analyze the tone, style, and communication patterns for a Discord community manager sharing tech news. Create a comprehensive personality profile including formality, vocabulary, emoji usage, humor style, engagement approach, key phrases, and topic angles. Return structured JSON format."

/-- Instruction of stage 3 in the full pipeline (lines 139-142). -/
def draftInstructionGen (n : NewsResponse) (p : PersonalityResponse) : String :=
  "Using this personality profile: " ++ stringifyJson p.personality_profile.toJson ++
  "\n\nAnd these news items: " ++ itemsContext (newsContextGenItems n) ++
  "\n\nGenerate an engaging Discord message that incorporates 2-3 news items. Match the personality profile exactly. Include appropriate markdown formatting and structure the message for maximum engagement in a Discord channel. Return JSON with the draft message and detailed metadata."

/-- Instruction of the regenerate path (lines 174-177). -/
def draftInstructionRegen (n : NewsResponse) (p : PersonalityResponse) : String :=
  "Using this personality profile: " ++ stringifyJson p.personality_profile.toJson ++
  "\n\nAnd these news items: " ++ itemsContext (newsContextRegenItems n) ++
  "\n\nGenerate a NEW and DIFFERENT engaging Discord message. Use a fresh approach while maintaining the personality profile. Return JSON with the draft message and detailed metadata."

/-- First `setResult` of each handler (lines 110 and 166):
`{ ...prev, loading: true, error: null }`. -/
def beginRun (s : WorkflowResult) : WorkflowResult :=
  { s with loading := true, error := none }

/-- Outcome of one stage as seen inside the `try` block: the combined effect
of `callAgent` plus the payload decode, either a typed result or a thrown
error's message (`Error.message`, e.g. "Agent call failed" from line 105 or
a `JSON.parse` failure). -/
structure GenOracle where
  news : Except String NewsResponse
  personality : Except String PersonalityResponse
  draft : Except String DraftResponse

/-- Model of `handleGenerateDraft` (lines 109-161): the full three-stage
pipeline.  Returns the state after the run together with the list of agent
calls issued, in order.  Each failure path is the catch block
`setResult(prev => ({ ...prev, loading: false, error }))` applied to the
state set at the start of the run. -/
def handleGenerateDraft (s : WorkflowResult) (o : GenOracle) :
    WorkflowResult × List AgentCall :=
  let s1 := beginRun s
  let newsCall : AgentCall := { agent_id := AGENT_IDS.news, message := newsInstruction }
  match o.news with
  | .error e => ({ s1 with loading := false, error := some e }, [newsCall])
  | .ok n =>
    let persCall : AgentCall :=
      { agent_id := AGENT_IDS.personality, message := personalityInstruction }
    match o.personality with
    | .error e => ({ s1 with loading := false, error := some e }, [newsCall, persCall])
    | .ok p =>
      let draftCall : AgentCall :=
        { agent_id := AGENT_IDS.draft, message := draftInstructionGen n p }
      match o.draft with
      | .error e =>
        ({ s1 with loading := false, error := some e }, [newsCall, persCall, draftCall])
      | .ok d =>
        ({ news := some n, personality := some p, draft := some d,
           loading := false, error := none }, [newsCall, persCall, draftCall])

/-- Which exit path `handleRegenerateDraft` took: the early-return guard of
line 164 (precondition failure: no cached news or personality), the success
path, or the catch block. -/
inductive RegenOutcome where
  | precondition : RegenOutcome
  | ok : RegenOutcome
  | failed : RegenOutcome

/-- Model of `handleRegenerateDraft` (lines 163-194): the draft-only
pipeline over the cached news and personality results.  Returns the state
after the run, the exit path taken, and the agent calls issued. -/
def handleRegenerateDraft (s : WorkflowResult) (o : Except String DraftResponse) :
    WorkflowResult × RegenOutcome × List AgentCall :=
  match s.news, s.personality with
  | some n, some p =>
    let s1 := beginRun s
    let draftCall : AgentCall :=
      { agent_id := AGENT_IDS.draft, message := draftInstructionRegen n p }
    match o with
    | .ok d => ({ s1 with draft := some d, loading := false }, .ok, [draftCall])
    | .error e => ({ s1 with loading := false, error := some e }, .failed, [draftCall])
  | _, _ => (s, .precondition, [])

/-- States the workflow can reach from the initial state through any
sequence of full-pipeline and regenerate runs, including the intermediate
loading state each handler publishes before its stages run. -/
inductive Reachable : WorkflowResult → Prop where
  | init : Reachable initialResult
  | genLoading {s : WorkflowResult} : Reachable s → Reachable (beginRun s)
  | genDone {s : WorkflowResult} (o : GenOracle) :
      Reachable s → Reachable (handleGenerateDraft s o).1
  | regenLoading {s : WorkflowResult} :
      Reachable s → s.news.isSome → s.personality.isSome → Reachable (beginRun s)
  | regenDone {s : WorkflowResult} (o : Except String DraftResponse) :
      Reachable s → Reachable (handleRegenerateDraft s o).1

/-- First field with the given key in a decoded JSON object (JavaScript
property access on the parsed payload). -/
def lookupField (fs : List (List Char × Json)) (k : String) : Option Json :=
  (fs.find? (fun kv => kv.1 == k.data)).map (fun kv => kv.2)

/-- Property access `j[k]` on a decoded payload. -/
def Json.getField : Json → String → Option Json
  | .obj fs, k => lookupField fs k
  | _, _ => none

/-- Index access `j[i]` on a decoded array. -/
def Json.getArrItem : Json → Nat → Option Json
  | .arr xs, i => xs.get? i
  | _, _ => none

/-- Numeric payload of a decoded JSON number. -/
def Json.asNum : Json → Option (Int × Nat)
  | .num m e => some (m, e)
  | _ => none

/-- Value at `payload.news_summary[i].relevance_score` of a decoded news
reply, as `JSON.parse` delivers it. -/
def newsScoreAt (j : Json) (i : Nat) : Option (Int × Nat) :=
  (((j.getField "news_summary").bind (fun a => a.getArrItem i)).bind
    (fun it => it.getField "relevance_score")).bind Json.asNum

/-- Search metadata of the sample replies used as concrete witnesses. -/
def sampleMetadata : SearchMetadata :=
  { queries_executed := [], total_results_found := 0, results_selected := 0,
    search_timestamp := "" }

/-- Sample news reply with an empty item list. -/
def sampleNews0 : NewsResponse :=
  { news_summary := [], search_metadata := sampleMetadata, confidence := ⟨0, 0⟩ }

/-- Sample news item carrying index `i` in its relevance score. -/
def mkItem (i : Int) : NewsItem :=
  { headline := "h", source := "s", date := "d", summary := "m",
    key_takeaway := "k", url := "u", relevance_score := ⟨i, 1⟩ }

/-- Sample news reply with five items. -/
def sampleNews5 : NewsResponse :=
  { news_summary := [mkItem 1, mkItem 2, mkItem 3, mkItem 4, mkItem 5],
    search_metadata := sampleMetadata, confidence := ⟨9, 1⟩ }

/-- Oracle of a run whose news stage succeeds and whose personality stage
throws (`Agent call failed`, line 105). -/
def stage2FailOracle : GenOracle :=
  { news := .ok sampleNews0, personality := .error "Agent call failed",
    draft := .error "Agent call failed" }

/-- Oracle of a failing regenerate call. -/
def regenFailOracle : Except String DraftResponse := Except.error "Agent call failed"

/-- Decoded news reply whose first item has `relevance_score` 1.5. -/
def sampleScoreJson : Json :=
  Json.obj [("news_summary".data,
    Json.arr [Json.obj [("relevance_score".data, Json.num 15 1)]])]

/-- C2: for every full-pipeline run in which all three stages succeed, the
final state has loading cleared, no error, and the news, personality and
draft results of this run committed. -/
theorem generate_success_commits_all (s : WorkflowResult) (n : NewsResponse)
    (p : PersonalityResponse) (d : DraftResponse) :
    (handleGenerateDraft s { news := .ok n, personality := .ok p, draft := .ok d }).1 =
      { news := some n, personality := some p, draft := some d,
        loading := false, error := none } := rfl

/-- C6: for every full-pipeline run whose first (news) stage fails, the
final state keeps the pre-run news, personality and draft values unchanged,
with loading cleared and the error recorded — a stage-1 failure commits
nothing. -/
theorem generate_stage1_failure_frame (s : WorkflowResult) (e : String)
    (op : Except String PersonalityResponse) (od : Except String DraftResponse) :
    (handleGenerateDraft s { news := .error e, personality := op, draft := od }).1 =
      { s with loading := false, error := some e } := rfl

/-- C1 (amended): for every full-pipeline run in which stage 1 succeeds and
stage 2 fails, the final state keeps news, personality and draft unchanged
from the pre-run state (the stage-1 news result is NOT committed), with
loading cleared and the error recorded. -/
theorem generate_stage2_failure_frame (s : WorkflowResult) (n : NewsResponse) (e : String)
    (od : Except String DraftResponse) :
    (handleGenerateDraft s { news := .ok n, personality := .error e, draft := od }).1 =
      { s with loading := false, error := some e } := rfl

/-- C1 counterexample: a concrete run from the initial state in which stage
1 succeeds with `sampleNews0` and stage 2 fails; contrary to the claim, the
news result of this run is not committed (the news field stays `none`). -/
theorem stage2_failure_drops_news :
    (handleGenerateDraft initialResult stage2FailOracle).1.error = some "Agent call failed" ∧
    (handleGenerateDraft initialResult stage2FailOracle).1.news ≠ some sampleNews0 :=
  ⟨rfl, fun h => Option.noConfusion h⟩

/-- C4: a regenerate run never changes the news or personality fields, and
replaces the draft field exactly when the stage succeeds with the
precondition satisfied; otherwise the draft keeps its pre-run value. -/
theorem regenerate_frame (s : WorkflowResult) (o : Except String DraftResponse) :
    (handleRegenerateDraft s o).1.news = s.news ∧
    (handleRegenerateDraft s o).1.personality = s.personality ∧
    (handleRegenerateDraft s o).1.draft =
      (match s.news, s.personality, o with
       | some _, some _, Except.ok d => some d
       | _, _, _ => s.draft) := by
  rcases hn : s.news with _ | n <;> rcases hp : s.personality with _ | p <;>
    rcases o with e | d <;>
    simp [handleRegenerateDraft, beginRun, hn, hp]

/-- C3: a regenerate run on a state with no cached news result or no cached
personality result exits through the precondition guard: the state is
unchanged and no agent call is issued. -/
theorem regenerate_precondition_guard (s : WorkflowResult)
    (o : Except String DraftResponse) (h : s.news = none ∨ s.personality = none) :
    handleRegenerateDraft s o = (s, RegenOutcome.precondition, []) := by
  rcases hn : s.news with _ | n <;> rcases hp : s.personality with _ | p <;>
    simp [handleRegenerateDraft, hn, hp]
  rcases h with h | h
  · rw [hn] at h
    cases h
  · rw [hp] at h
    cases h

theorem regenerate_precondition_guard_witness :
    (initialResult.news = none ∨ initialResult.personality = none) ∧
    handleRegenerateDraft initialResult regenFailOracle =
      (initialResult, RegenOutcome.precondition, []) :=
  ⟨Or.inl rfl, regenerate_precondition_guard initialResult regenFailOracle (Or.inl rfl)⟩

/-- C5: in every state reachable by any sequence of full-pipeline and
regenerate runs (including failures and the intermediate loading states), a
set loading flag implies the error field is cleared. -/
theorem loading_clears_error {s : WorkflowResult} (h : Reachable s) :
    s.loading = true → s.error = none := by
  induction h with
  | init => intro hl; cases hl
  | genLoading _ _ => intro _; rfl
  | genDone o _ ih =>
    intro hl
    rcases o with ⟨onews, op, od⟩
    rcases onews with e | n
    · simp [handleGenerateDraft, beginRun] at hl
    · rcases op with e | p
      · simp [handleGenerateDraft, beginRun] at hl
      · rcases od with e | d <;> simp [handleGenerateDraft, beginRun] at hl
  | regenLoading _ _ _ _ => intro _; rfl
  | regenDone o hs ih =>
    intro hl
    rename_i s'
    rcases hn : s'.news with _ | n <;> rcases hp : s'.personality with _ | p
    · simp [handleRegenerateDraft, hn, hp] at hl ⊢
      exact ih hl
    · simp [handleRegenerateDraft, hn, hp] at hl ⊢
      exact ih hl
    · simp [handleRegenerateDraft, hn, hp] at hl ⊢
      exact ih hl
    · rcases o with e | d <;> simp [handleRegenerateDraft, beginRun, hn, hp] at hl

theorem loading_clears_error_witness :
    Reachable (beginRun initialResult) ∧ (beginRun initialResult).loading = true ∧
    (beginRun initialResult).error = none :=
  ⟨Reachable.genLoading Reachable.init, rfl,
   loading_clears_error (Reachable.genLoading Reachable.init) rfl⟩

/-- C7: for every news result with at least three items, the draft-stage
context of the full pipeline holds exactly the first three items in their
existing order, and the regenerate path builds the identical context. -/
theorem draft_context_first_three (n : NewsResponse)
    (h : 3 ≤ n.news_summary.length) :
    (newsContextGenItems n).length = 3 ∧
    (newsContextGenItems n).get? 0 = n.news_summary.get? 0 ∧
    (newsContextGenItems n).get? 1 = n.news_summary.get? 1 ∧
    (newsContextGenItems n).get? 2 = n.news_summary.get? 2 ∧
    newsContextRegenItems n = newsContextGenItems n := by
  rcases hl : n.news_summary with _ | ⟨a, _ | ⟨b, _ | ⟨c, t⟩⟩⟩
  · rw [hl] at h
    simp at h
  · rw [hl] at h
    simp at h
  · rw [hl] at h
    simp at h
  · refine ⟨?_, ?_, ?_, ?_, rfl⟩ <;> simp only [newsContextGenItems, hl] <;> rfl

theorem draft_context_first_three_witness :
    3 ≤ sampleNews5.news_summary.length ∧
    ((newsContextGenItems sampleNews5).length = 3 ∧
     (newsContextGenItems sampleNews5).get? 0 = sampleNews5.news_summary.get? 0 ∧
     (newsContextGenItems sampleNews5).get? 1 = sampleNews5.news_summary.get? 1 ∧
     (newsContextGenItems sampleNews5).get? 2 = sampleNews5.news_summary.get? 2 ∧
     newsContextRegenItems sampleNews5 = newsContextGenItems sampleNews5) :=
  ⟨by decide, draft_context_first_three sampleNews5 (by decide)⟩

/-- C10: for every news result with fewer than three items (including
none), the draft-stage context construction is total and holds exactly all
available items in order, in both the full pipeline and the regenerate
path. -/
theorem draft_context_short_list (n : NewsResponse)
    (h : n.news_summary.length < 3) :
    newsContextGenItems n = n.news_summary ∧
    newsContextRegenItems n = n.news_summary := by
  constructor <;>
    · simp only [newsContextGenItems, newsContextRegenItems]
      exact List.take_of_length_le (by omega)

theorem draft_context_short_list_witness :
    sampleNews0.news_summary.length < 3 ∧
    (newsContextGenItems sampleNews0 = sampleNews0.news_summary ∧
     newsContextRegenItems sampleNews0 = sampleNews0.news_summary) :=
  ⟨by decide, draft_context_short_list sampleNews0 (by decide)⟩

/-- C8: decoding a reply that carries a payload as an already-structured
value and decoding a reply that carries the same payload as its serialized
JSON text yield the identical structure (decode of serialize is the
identity). -/
theorem payload_decode_roundtrip (j : Json) :
    decodePayload (Payload.structured j) = some j ∧
    decodePayload (Payload.serialized (emit j)) = some j :=
  ⟨rfl, parseJson_emit j⟩

/-- C9: decoding a news reply that carries a relevance score outside the
nominal unit interval (for example 1.5) preserves the score unmodified in
the decoded result — it is neither clamped nor rejected — for both payload
representations. -/
theorem relevance_score_preserved (j : Json) (p : Payload) (i : Nat)
    (m : Int) (e : Nat)
    (hp : p = Payload.structured j ∨ p = Payload.serialized (emit j))
    (hs : newsScoreAt j i = some (m, e))
    (_hout : decimalVal m e < 0 ∨ 1 < decimalVal m e) :
    ∃ j', decodePayload p = some j' ∧ newsScoreAt j' i = some (m, e) := by
  refine ⟨j, ?_, hs⟩
  rcases hp with rfl | rfl
  · rfl
  · exact parseJson_emit j

theorem relevance_score_preserved_witness :
    ((Payload.serialized (emit sampleScoreJson) = Payload.structured sampleScoreJson ∨
      Payload.serialized (emit sampleScoreJson) = Payload.serialized (emit sampleScoreJson)) ∧
     newsScoreAt sampleScoreJson 0 = some (15, 1) ∧
     (decimalVal 15 1 < 0 ∨ 1 < decimalVal 15 1)) ∧
    (∃ j', decodePayload (Payload.serialized (emit sampleScoreJson)) = some j' ∧
      newsScoreAt j' 0 = some (15, 1)) :=
  ⟨⟨Or.inr rfl, rfl, Or.inr (by norm_num [decimalVal])⟩,
   relevance_score_preserved sampleScoreJson _ 0 15 1 (Or.inr rfl) rfl
     (Or.inr (by norm_num [decimalVal]))⟩
